import Mathlib

/-!
# Verification of the WebGL replay engine (`webgl-main.cc` / `webgl-shared.h`)

Shallow embedding of the generated WebGL replay executable of the
tracing-framework repository.  The C++ source consists of:

* `CanvasContext` — one SDL window + GL context, with a per-context handle
  table `object_map_ : unordered_map<int, GLuint>` mapping trace handles to
  native GL object ids (`GetObject` / `SetObject` / `MakeCurrent` / `Swap`);
* `Replay` — the orchestrator holding the step list, the binary resource
  blob (`LoadResources` / `GetBinData`) and the frame loop
  (`Run` / `IssueNextStep`);
* `InitializeExtensions` — the process-wide one-shot extension bootstrap.

Machine integers: `int` handles are modelled as `Int`, `GLuint` ids and
byte values as `Nat`, and `size_t` as `Nat` with arithmetic taken modulo
`2 ^ 64` exactly where the C++ computes a `size_t` sum that can wrap.
`exit(1)` is modelled as an `Option`/error result; `printf` logging has no
observable effect on the replayed state and is not modelled.
-/

namespace WTF

/-! ## Definitions

### The handle table (`unordered_map<int, GLuint> object_map_`)

The table is embedded as an association list with at most one entry per key
(every operation that inserts preserves that shape).  `objectMapLookup` is
`unordered_map::find`; `objectMapStore` is `operator[] = v`, which
overwrites an existing entry or appends a fresh one. -/

/-- `unordered_map<int, GLuint>::find`: the value stored under key `k`,
if any. -/
def objectMapLookup : List (Int × Nat) → Int → Option Nat
  | [], _ => none
  | (k, v) :: rest, h => if k = h then some v else objectMapLookup rest h

/-- `unordered_map<int, GLuint>` assignment `m[k] = v`: overwrite the entry
for `k` when present, otherwise add a fresh entry. -/
def objectMapStore : List (Int × Nat) → Int → Nat → List (Int × Nat)
  | [], h, v => [(h, v)]
  | (k, w) :: rest, h, v =>
    if k = h then (h, v) :: rest else (k, w) :: objectMapStore rest h v

/-! ### `CanvasContext`

One SDL window plus its GL context.  The observable state is the stored
drawable dimensions `width_`/`height_`, the backend viewport last set by
`glViewport`, a counter of `SDL_SetWindowSize` calls (so "no native resize
call is issued" is expressible), and the handle table. -/

structure CanvasContext where
  width : Int
  height : Int
  viewportW : Int
  viewportH : Int
  setWindowSizeCalls : Nat
  object_map : List (Int × Nat)
deriving DecidableEq

/-- `CanvasContext::GetObject`: `return handle ? object_map_[handle] : 0;`.
For a non-zero handle, `unordered_map::operator[]` returns the stored id or
value-initialises (to `0`) and inserts a fresh entry when the handle is
unmapped; the possibly-grown table is the second component. -/
def CanvasContext.GetObject (c : CanvasContext) (handle : Int) :
    Nat × CanvasContext :=
  if handle = 0 then (0, c)
  else
    match objectMapLookup c.object_map handle with
    | some v => (v, c)
    | none => (0, { c with object_map := objectMapStore c.object_map handle 0 })

/-- `CanvasContext::SetObject`: `object_map_[handle] = id;`. -/
def CanvasContext.SetObject (c : CanvasContext) (handle : Int) (id : Nat) :
    CanvasContext :=
  { c with object_map := objectMapStore c.object_map handle id }

/-- `CanvasContext::MakeCurrent(width, height)` (default arguments `-1`):
rebinds the context, and only when both dimensions are explicit (`≠ -1`)
and at least one differs from the stored ones does it store the new
dimensions, call `SDL_SetWindowSize` and reset the `glViewport`. -/
def CanvasContext.MakeCurrent (c : CanvasContext) (width height : Int) :
    CanvasContext :=
  if width ≠ -1 ∧ height ≠ -1 then
    if width ≠ c.width ∨ height ≠ c.height then
      { c with
        width := width
        height := height
        setWindowSizeCalls := c.setWindowSizeCalls + 1
        viewportW := width
        viewportH := height }
    else c
  else c

/-- A sequence of `SetObject` calls applied in order. -/
def applySetObjects (c : CanvasContext) (ops : List (Int × Nat)) :
    CanvasContext :=
  ops.foldl (fun acc p => acc.SetObject p.1 p.2) c

/-- The value of the most recent `SetObject` call for handle `h` in `ops`
(`ops` is in chronological order, so later entries take precedence). -/
def lastBinding : List (Int × Nat) → Int → Option Nat
  | [], _ => none
  | (k, v) :: rest, h =>
    match lastBinding rest h with
    | some w => some w
    | none => if k = h then some v else none

/-! ### The resource blob store (`Replay::LoadResources` / `Replay::GetBinData`)

`bin_data_` is a byte buffer, `bin_data_length_` a `size_t`.  `GetBinData`
compares the `size_t` sum `offset + length` (which wraps modulo `2 ^ 64`)
against the stored length and returns the pointer `bin_data_ + offset`
(represented by the offset itself) or `NULL` (represented by `none`). -/

/-- Number of values of the 64-bit `size_t`. -/
def sizeT : Nat := 2 ^ 64

/-- `Replay::GetBinData(offset, length)`:
`if (offset + length > bin_data_length_) return NULL; return bin_data_ + offset;`
with the sum computed in `size_t` arithmetic.  `some p` is the non-null
pointer `bin_data_ + p`. -/
def Replay.GetBinData (bin_data : List Nat) (offset len : Nat) : Option Nat :=
  if (offset + len) % sizeT > bin_data.length then none else some offset

/-- The `len` bytes readable at pointer `bin_data_ + p` while staying inside
the blob: the view a caller of `GetBinData` reads. -/
def binBytesAt (bin_data : List Nat) (p len : Nat) : List Nat :=
  (bin_data.drop p).take len

/-- The blob-related fields of `Replay`: `bin_data_` (`none` is the null
pointer, as set by the constructor) and `bin_data_length_`. -/
structure BinState where
  bin_data : Option (List Nat)
  bin_data_length : Nat
deriving DecidableEq

/-- The environment `LoadResources` runs in: whether
`readlink("/proc/self/exe", ...)` succeeds, whether `fopen` succeeds,
whether `malloc` succeeds, and the bytes of the `.bin` file. -/
structure LoadEnv where
  readlink_ok : Bool
  fopen_ok : Bool
  malloc_ok : Bool
  file_bytes : List Nat
deriving DecidableEq

/-- `Replay::LoadResources` (Linux branch), step by step:
* `readlink` fails → `printf("Can't find myself!\n"); return 1;` — note the
  function returns `bool`, so the literal `1` converts to `true`;
* `fopen` fails → `return false;` with no field written;
* otherwise `bin_data_length_` is set from `ftell`, then `malloc`; if
  `malloc` fails → `return false;` with `bin_data_length_` already set and
  `bin_data_` assigned the null pointer it already held;
* otherwise `fread` fills the buffer and the function returns `true`. -/
def Replay.LoadResources (env : LoadEnv) (s : BinState) : Bool × BinState :=
  if env.readlink_ok = false then (true, s)
  else if env.fopen_ok = false then (false, s)
  else
    let s1 : BinState := ⟨s.bin_data, env.file_bytes.length⟩
    if env.malloc_ok = false then (false, s1)
    else (true, ⟨some env.file_bytes, env.file_bytes.length⟩)

/-- The fields of a freshly constructed `Replay`:
`bin_data_(0), bin_data_length_(0)`. -/
def Replay.initialBinState : BinState := ⟨none, 0⟩

/-- `Replay::Run` ends with `return 0;` unconditionally. -/
def Replay.RunExitCode : Nat := 0

/-- `main`: `if (!replay.LoadResources()) return 1; return replay.Run();`. -/
def mainExitCode (env : LoadEnv) : Nat :=
  if (Replay.LoadResources env Replay.initialBinState).1 = true then
    Replay.RunExitCode
  else 1

/-! ### Extension bootstrap (`InitializeExtensions`)

Global state: the guard `extensions_initialized` and the three resolved
function pointers (modelled as `Nat`, `0` being the initial null pointer).
The environment supplies whether `SDL_GL_ExtensionSupported
("GL_ARB_instanced_arrays")` holds and the addresses returned by
`SDL_GL_GetProcAddress` for the three entry points. -/

structure ExtState where
  extensions_ready : Bool
  glDrawArraysInstanced : Nat
  glDrawElementsInstanced : Nat
  glVertexAttribDivisor : Nat
deriving DecidableEq

/-- `InitializeExtensions()`: return immediately when the guard
`extensions_initialized` is already set; otherwise set the guard, log the
version/extension strings, and either `exit(1)` (modelled `none`) when the
instanced-arrays extension is unsupported, or resolve the three function
pointers.  The guard field is named `extensions_ready` here for the global
`extensions_initialized`. -/
def InitializeExtensions (supported : Bool) (paAddr peAddr pvAddr : Nat)
    (s : ExtState) : Option ExtState :=
  if s.extensions_ready then some s
  else if supported then some ⟨true, paAddr, peAddr, pvAddr⟩
  else none

/-! ### The frame loop (`Replay::Run` / `Replay::IssueNextStep`)

Each iteration of `Run` drains the SDL event queue, exits if a terminating
event was seen, otherwise issues exactly one recorded step, swaps every
canvas, and sleeps 16 ms.  The step functions are opaque: the model records
which step indices were issued.  `RunState` carries `step_count_`,
`step_index_`, the chronological list of issued step indices, and the
number of completed swap-all-windows rounds. -/

structure SDLEventModel where
  etype : Nat
  window_event : Nat
deriving DecidableEq

/-- `SDL_QUIT` (= `0x100`). -/
def SDL_QUIT : Nat := 256

/-- `SDL_WINDOWEVENT` (= `0x200`). -/
def SDL_WINDOWEVENT : Nat := 512

/-- `SDL_WINDOWEVENT_CLOSE` (= `14`), used by the source directly as a case
label on `event.type`, and as the literal `14` on `event.window.event`. -/
def SDL_WINDOWEVENT_CLOSE : Nat := 14

/-- The event cases of `Run`'s drain loop that assign `running = false`:
`case SDL_WINDOWEVENT_CLOSE: case SDL_QUIT:` on `event.type`, and
`case 14:` on `event.window.event` under `case SDL_WINDOWEVENT:`.  All
other events are only logged. -/
def stopsRunning (e : SDLEventModel) : Bool :=
  (e.etype == SDL_WINDOWEVENT_CLOSE) || (e.etype == SDL_QUIT) ||
    ((e.etype == SDL_WINDOWEVENT) && (e.window_event == 14))

structure RunState where
  step_count : Nat
  step_index : Nat
  issued : List Nat
  swap_rounds : Nat
deriving DecidableEq

/-- `Replay::IssueNextStep`: issue `steps_[step_index_++]` (the model
records the issued index) and return `step_index_ < step_count_`. -/
def Replay.IssueNextStep (s : RunState) : Bool × RunState :=
  (decide (s.step_index + 1 < s.step_count),
    ⟨s.step_count, s.step_index + 1, s.issued ++ [s.step_index],
      s.swap_rounds⟩)

/-- The body of `Replay::Run`'s `while (running)` loop, from iteration `i`
on.  `events i` is the batch the iteration-`i` drain loop polls.  If any
polled event sets `running = false` the loop body hits
`if (!running) break;` untouched; otherwise it issues one step, swaps every
window (one swap round), sleeps, and loops while `running`.  `fuel` bounds
the recursion; every claim below supplies enough fuel for the loop to
reach its real exit. -/
def Replay.RunFrom (events : Nat → List SDLEventModel) :
    Nat → Nat → RunState → RunState
  | 0, _, s => s
  | fuel + 1, i, s =>
    if (events i).any stopsRunning then s
    else
      let r := Replay.IssueNextStep s
      let s1 : RunState :=
        ⟨r.2.step_count, r.2.step_index, r.2.issued, r.2.swap_rounds + 1⟩
      if r.1 then Replay.RunFrom events fuel (i + 1) s1 else s1

/-- A full `Replay::Run` on a fresh `Replay` (constructor sets
`step_index_(0)`) with `step_count_ = count`.  `count + 1` units of fuel
always outlast the loop, whose iteration count is at most
`max count 1`. -/
def Replay.Run (events : Nat → List SDLEventModel) (count : Nat) : RunState :=
  Replay.RunFrom events (count + 1) 0 ⟨count, 0, [], 0⟩

/-! ## Helper lemmas -/

theorem objectMapLookup_store_self (m : List (Int × Nat)) (h : Int) (v : Nat) :
    objectMapLookup (objectMapStore m h v) h = some v := by
  induction m with
  | nil => simp [objectMapStore, objectMapLookup]
  | cons p rest ih =>
    obtain ⟨k, w⟩ := p
    by_cases hk : k = h
    · simp [objectMapStore, objectMapLookup, hk]
    · simp [objectMapStore, objectMapLookup, hk, ih]

theorem objectMapLookup_store_other (m : List (Int × Nat)) (h k : Int) (v : Nat)
    (hne : k ≠ h) :
    objectMapLookup (objectMapStore m h v) k = objectMapLookup m k := by
  induction m with
  | nil => simp [objectMapStore, objectMapLookup, Ne.symm hne]
  | cons p rest ih =>
    obtain ⟨k', w⟩ := p
    by_cases hk : k' = h
    · subst hk
      simp [objectMapStore, objectMapLookup, Ne.symm hne]
    · simp [objectMapStore, if_neg hk, objectMapLookup, ih]

theorem objectMapStore_length_of_lookup_none (m : List (Int × Nat)) (h : Int)
    (v : Nat) (hm : objectMapLookup m h = none) :
    (objectMapStore m h v).length = m.length + 1 := by
  induction m with
  | nil => simp [objectMapStore]
  | cons p rest ih =>
    obtain ⟨k, w⟩ := p
    by_cases hk : k = h
    · simp [objectMapLookup, hk] at hm
    · simp only [objectMapLookup, if_neg hk] at hm
      simp [objectMapStore, hk, ih hm]

theorem applySetObjects_lookup (ops : List (Int × Nat)) (c : CanvasContext)
    (h : Int) :
    objectMapLookup (applySetObjects c ops).object_map h =
      match lastBinding ops h with
      | some v => some v
      | none => objectMapLookup c.object_map h := by
  induction ops generalizing c with
  | nil => simp [applySetObjects, lastBinding]
  | cons p rest ih =>
    obtain ⟨k, v⟩ := p
    have hstep : applySetObjects c ((k, v) :: rest) =
        applySetObjects (c.SetObject k v) rest := rfl
    rw [hstep, ih]
    cases hlast : lastBinding rest h with
    | some w => simp [lastBinding, hlast]
    | none =>
      by_cases hk : k = h
      · subst hk
        simp [lastBinding, hlast, CanvasContext.SetObject,
          objectMapLookup_store_self]
      · simp [lastBinding, hlast, hk, CanvasContext.SetObject,
          objectMapLookup_store_other _ _ _ _ (Ne.symm hk)]

/-- With no terminating event ever polled, the loop runs from any state with
steps remaining to the natural end of the sequence: the cursor reaches
`step_count_`, the remaining step indices are issued in increasing order,
and each of those iterations performs exactly one swap round. -/
theorem runFrom_no_stop (events : Nat → List SDLEventModel)
    (hev : ∀ i, (events i).any stopsRunning = false) :
    ∀ fuel i s, s.step_count - s.step_index ≤ fuel →
      s.step_index < s.step_count →
      Replay.RunFrom events fuel i s =
        ⟨s.step_count, s.step_count,
          s.issued ++ List.range' s.step_index (s.step_count - s.step_index),
          s.swap_rounds + (s.step_count - s.step_index)⟩ := by
  intro fuel
  induction fuel with
  | zero => intro i s hfuel hlt; omega
  | succ fuel ih =>
    intro i s hfuel hlt
    obtain ⟨count, index, issued, swaps⟩ := s
    simp only [Replay.RunFrom, hev i, Bool.false_eq_true, if_false,
      Replay.IssueNextStep] at *
    by_cases hlt2 : index + 1 < count
    · rw [if_pos (by simpa using hlt2)]
      rw [ih (i + 1) ⟨count, index + 1, issued ++ [index], swaps + 1⟩
        (by simp; omega) (by simpa using hlt2)]
      have h1 : count - index = (count - (index + 1)) + 1 := by omega
      rw [h1, List.range'_succ]
      simp [List.append_assoc]
      omega
    · rw [if_neg (by simpa using hlt2)]
      have hc : count = index + 1 := by omega
      subst hc
      simp [List.range'_succ]

/-! ## Claims -/

/-- C1 (amended: the sequence must be non-empty): over a full run of `Run`
in which no polled event is a quit or window-close, the recorded operations
are issued in strictly increasing order `0, 1, …, N-1`, exactly `N`
issues occur with one swap round per frame iteration (`N` rounds for `N`
frames — one step per frame, never batched, reordered or skipped), and
`step_index_ = N` when the loop completes. -/
theorem run_issues_all_steps_in_order (events : Nat → List SDLEventModel)
    (count : Nat) (hcount : 1 ≤ count)
    (hev : ∀ i, (events i).any stopsRunning = false) :
    Replay.Run events count = ⟨count, count, List.range count, count⟩ := by
  have h := runFrom_no_stop events hev (count + 1) 0 ⟨count, 0, [], 0⟩
    (by simp) (by simpa using hcount)
  simpa [Replay.Run, List.range_eq_range'] using h

/-- C1 witness: a three-step trace with an always-empty event queue issues
steps `[0, 1, 2]`, one per frame, and ends with the cursor at `3`. -/
theorem run_issues_all_steps_in_order_witness :
    Replay.Run (fun _ => []) 3 = ⟨3, 3, List.range 3, 3⟩ :=
  run_issues_all_steps_in_order (fun _ => []) 3 (by decide) (fun _ => rfl)

/-- C1 counterexample: for the empty recorded sequence (`N = 0`) the loop
body still issues `steps_[0]` (an out-of-range access) before
`IssueNextStep` reports no steps remaining, so one issue occurs and the
cursor ends at `1`, not `0`. -/
theorem run_zero_steps_counterexample :
    (Replay.Run (fun _ => []) 0).step_index = 1 ∧
    (Replay.Run (fun _ => []) 0).issued.length = 1 := by
  constructor <;> rfl

/-- C2 (amended: for offsets and lengths whose `size_t` sum does not wrap,
i.e. `offset + len < 2 ^ 64`): `GetBinData` returns data iff
`offset + len ≤ blobLength`; when it returns a pointer, that pointer is
`bin_data_ + offset` and the `len` bytes readable there are exactly the
blob's bytes at `[offset, offset + len)` — never partial data. -/
theorem getBinData_bounds_and_roundtrip (bin_data : List Nat)
    (offset len : Nat) (hrange : offset + len < sizeT) :
    ((Replay.GetBinData bin_data offset len).isSome ↔
      offset + len ≤ bin_data.length) ∧
    ∀ p, Replay.GetBinData bin_data offset len = some p →
      p = offset ∧ (binBytesAt bin_data p len).length = len ∧
      ∀ i, i < len → (binBytesAt bin_data p len)[i]? = bin_data[offset + i]? := by
  have hmod : (offset + len) % sizeT = offset + len := Nat.mod_eq_of_lt hrange
  by_cases hle : offset + len ≤ bin_data.length
  · have hcond : ¬((offset + len) % sizeT > bin_data.length) := by
      rw [hmod]; omega
    refine ⟨by simp [Replay.GetBinData, if_neg hcond, hle], ?_⟩
    intro p hp
    simp only [Replay.GetBinData, if_neg hcond, Option.some.injEq] at hp
    subst hp
    refine ⟨rfl, ?_, ?_⟩
    · have hmin : len ≤ bin_data.length - offset := by omega
      simp [binBytesAt, List.length_take, List.length_drop,
        Nat.min_eq_left hmin]
    · intro i hi
      unfold binBytesAt
      rw [List.getElem?_take_of_lt hi, List.getElem?_drop]
  · have hcond : (offset + len) % sizeT > bin_data.length := by
      rw [hmod]; omega
    refine ⟨by simp [Replay.GetBinData, if_pos hcond, hle], ?_⟩
    intro p hp
    simp [Replay.GetBinData, if_pos hcond] at hp

/-- C2 witness: on the three-byte blob `[10, 11, 12]`, the read at offset
`1` of length `2` returns data exactly because `1 + 2 ≤ 3`. -/
theorem getBinData_bounds_and_roundtrip_witness :
    (Replay.GetBinData [10, 11, 12] 1 2).isSome ↔
      1 + 2 ≤ ([10, 11, 12] : List Nat).length :=
  (getBinData_bounds_and_roundtrip [10, 11, 12] 1 2 (by decide)).1

/-- C2 counterexample: the `size_t` sum `offset + length` wraps, so with a
one-byte blob, `offset = 2 ^ 64 - 1` and `length = 2` the guard computes
`(2 ^ 64 - 1 + 2) mod 2 ^ 64 = 1 ≤ 1` and `GetBinData` returns a (wild)
non-null pointer even though `offset + length > blobLength`. -/
theorem getBinData_overflow_counterexample :
    2 ^ 64 - 1 + 2 > ([7] : List Nat).length ∧
    (Replay.GetBinData [7] (2 ^ 64 - 1) 2).isSome = true := by
  constructor
  · decide
  · rfl

/-- C3: if the event batch polled at the start of a frame iteration
contains a quit event, a window-close event, or a window event whose
sub-event code is `14` (window close), the loop exits with the state
untouched: no further recorded operation is issued and no swap round is
performed in that iteration or afterwards. -/
theorem run_stops_on_terminating_event (events : Nat → List SDLEventModel)
    (fuel i : Nat) (s : RunState)
    (hstop : ∃ e ∈ events i, e.etype = SDL_QUIT ∨
      e.etype = SDL_WINDOWEVENT_CLOSE ∨
      (e.etype = SDL_WINDOWEVENT ∧ e.window_event = 14)) :
    Replay.RunFrom events fuel i s = s := by
  have hany : (events i).any stopsRunning = true := by
    obtain ⟨e, he, hcase⟩ := hstop
    refine List.any_eq_true.mpr ⟨e, he, ?_⟩
    rcases hcase with h1 | h1 | ⟨h1, h2⟩ <;>
      simp [stopsRunning, SDL_QUIT, SDL_WINDOWEVENT, SDL_WINDOWEVENT_CLOSE,
        h1, *]
  cases fuel with
  | zero => rfl
  | succ fuel => simp [Replay.RunFrom, hany]

/-- C3 witness: a pending `SDL_QUIT` freezes a run that still had three
steps to issue: the final state is the entry state. -/
theorem run_stops_on_terminating_event_witness :
    Replay.RunFrom (fun _ => [⟨256, 0⟩]) 5 0 ⟨3, 0, [], 0⟩ = ⟨3, 0, [], 0⟩ :=
  run_stops_on_terminating_event (fun _ => [⟨256, 0⟩]) 5 0 ⟨3, 0, [], 0⟩
    ⟨⟨256, 0⟩, by simp, Or.inl rfl⟩

/-- C4 (amended: on a file-open failure `LoadResources` returns `false`
with no field changed, and on an allocation failure it returns `false`
with the blob pointer unchanged but `bin_data_length_` already overwritten
with the file's length — that partial state is retained). -/
theorem loadResources_failure_semantics (env : LoadEnv) (s : BinState)
    (hrl : env.readlink_ok = true) :
    (env.fopen_ok = false → Replay.LoadResources env s = (false, s)) ∧
    (env.fopen_ok = true → env.malloc_ok = false →
      Replay.LoadResources env s =
        (false, ⟨s.bin_data, env.file_bytes.length⟩)) := by
  constructor
  · intro h2; simp [Replay.LoadResources, hrl, h2]
  · intro h2 h3; simp [Replay.LoadResources, hrl, h2, h3]

/-- C4 witness: with a fresh `Replay` and an unopenable file,
`LoadResources` returns `false` and leaves both fields untouched. -/
theorem loadResources_failure_semantics_witness :
    Replay.LoadResources ⟨true, false, true, []⟩ ⟨none, 0⟩ =
      (false, ⟨none, 0⟩) :=
  (loadResources_failure_semantics ⟨true, false, true, []⟩ ⟨none, 0⟩ rfl).1 rfl

/-- C4 counterexample: when `malloc` fails on a three-byte file,
`LoadResources` reports `false` but has already set `bin_data_length_ = 3`,
so the post-state differs from the pre-state `(null, 0)`: partial state is
retained. -/
theorem loadResources_partial_state_counterexample :
    (Replay.LoadResources ⟨true, true, false, [1, 2, 3]⟩ ⟨none, 0⟩).1 =
      false ∧
    (Replay.LoadResources ⟨true, true, false, [1, 2, 3]⟩ ⟨none, 0⟩).2 ≠
      (⟨none, 0⟩ : BinState) := by
  decide

/-- C5: `GetObject(0)` returns the zero native id on every context and
every handle-table state, and leaves the table untouched (no
`operator[]` lookup, which would otherwise insert). -/
theorem getObject_zero (c : CanvasContext) : c.GetObject 0 = (0, c) := by
  simp [CanvasContext.GetObject]

/-- C6: for a non-zero handle bound at least once, `GetObject` returns the
native id of the most recent `SetObject` call for that handle — later
bindings overwrite earlier ones. -/
theorem getObject_last_binding (c : CanvasContext) (ops : List (Int × Nat))
    (h : Int) (v : Nat) (hh : h ≠ 0) (hv : lastBinding ops h = some v) :
    ((applySetObjects c ops).GetObject h).1 = v := by
  have hl := applySetObjects_lookup ops c h
  rw [hv] at hl
  simp [CanvasContext.GetObject, hh, hl]

/-- C6 witness: binding handle `1` to `10` and then to `20` makes
`GetObject 1` return `20`. -/
theorem getObject_last_binding_witness :
    ((applySetObjects ⟨800, 480, 800, 480, 0, []⟩
      [(1, 10), (1, 20)]).GetObject 1).1 = 20 :=
  getObject_last_binding ⟨800, 480, 800, 480, 0, []⟩ [(1, 10), (1, 20)] 1 20
    (by decide) rfl

/-- C7: `MakeCurrent` with explicit dimensions equal to the stored ones is
a no-op (no `SDL_SetWindowSize` call, state unchanged); with explicit
dimensions that differ it stores the new dimensions, issues exactly one
native resize call, and sets the backend viewport to the new values. -/
theorem makeCurrent_resize_semantics (c : CanvasContext) (w h : Int)
    (hw : w ≠ -1) (hh : h ≠ -1) :
    (w = c.width ∧ h = c.height → c.MakeCurrent w h = c) ∧
    ((w ≠ c.width ∨ h ≠ c.height) →
      (c.MakeCurrent w h).width = w ∧ (c.MakeCurrent w h).height = h ∧
      (c.MakeCurrent w h).viewportW = w ∧
      (c.MakeCurrent w h).viewportH = h ∧
      (c.MakeCurrent w h).setWindowSizeCalls = c.setWindowSizeCalls + 1 ∧
      (c.MakeCurrent w h).object_map = c.object_map) := by
  constructor
  · rintro ⟨hw2, hh2⟩
    have hno : ¬(w ≠ c.width ∨ h ≠ c.height) := by
      push_neg
      exact ⟨hw2, hh2⟩
    unfold CanvasContext.MakeCurrent
    rw [if_pos ⟨hw, hh⟩, if_neg hno]
  · intro hdiff
    unfold CanvasContext.MakeCurrent
    rw [if_pos ⟨hw, hh⟩, if_pos hdiff]
    exact ⟨rfl, rfl, rfl, rfl, rfl, rfl⟩

/-- C7 witness: making an `800 × 480` context current with explicit
dimensions `800 × 480` leaves it exactly as it was. -/
theorem makeCurrent_resize_semantics_witness :
    (⟨800, 480, 800, 480, 0, []⟩ : CanvasContext).MakeCurrent 800 480 =
      ⟨800, 480, 800, 480, 0, []⟩ :=
  (makeCurrent_resize_semantics ⟨800, 480, 800, 480, 0, []⟩ 800 480
    (by decide) (by decide)).1 ⟨rfl, rfl⟩

/-- C8: the extension bootstrap runs at most once per process — when the
guard is already set the call returns the state unchanged without querying
anything; on the first effective call it either terminates the process
(`none`) when `GL_ARB_instanced_arrays` is unsupported, or resolves the
three function pointers and sets the guard, after which every further call
(whatever the environment then reports) is an idempotent no-op. -/
theorem initializeExtensions_contract (supported : Bool)
    (paAddr peAddr pvAddr : Nat) (s : ExtState) :
    (s.extensions_ready = true →
      InitializeExtensions supported paAddr peAddr pvAddr s = some s) ∧
    (s.extensions_ready = false → supported = false →
      InitializeExtensions supported paAddr peAddr pvAddr s = none) ∧
    (s.extensions_ready = false → supported = true →
      InitializeExtensions supported paAddr peAddr pvAddr s =
        some ⟨true, paAddr, peAddr, pvAddr⟩ ∧
      ∀ supported2 pa2 pe2 pv2,
        InitializeExtensions supported2 pa2 pe2 pv2
          ⟨true, paAddr, peAddr, pvAddr⟩ =
            some ⟨true, paAddr, peAddr, pvAddr⟩) := by
  refine ⟨?_, ?_, ?_⟩
  · intro h1; simp [InitializeExtensions, h1]
  · intro h1 h2; simp [InitializeExtensions, h1, h2]
  · intro h1 h2
    refine ⟨by simp [InitializeExtensions, h1, h2], ?_⟩
    intro supported2 pa2 pe2 pv2
    simp [InitializeExtensions]

/-- C8 witness: once the guard is set, a later call — even one whose
environment would report the extension missing — changes nothing. -/
theorem initializeExtensions_contract_witness :
    InitializeExtensions false 0 0 0 ⟨true, 5, 6, 7⟩ = some ⟨true, 5, 6, 7⟩ :=
  (initializeExtensions_contract false 0 0 0 ⟨true, 5, 6, 7⟩).1 rfl

/-- C9 (code bug): when `readlink("/proc/self/exe", …)` fails,
`LoadResources` executes `return 1;` — but its return type is `bool`, so
the `1` converts to `true`, `main` treats loading as successful and the
process exits with `Run`'s unconditional `0`, not the claimed `1`. -/
theorem mainExitCode_readlink_failure :
    mainExitCode ⟨false, false, false, []⟩ = 0 := by
  decide

/-- C10: `GetObject` on a non-zero handle with no table entry returns the
zero native id, and as a side effect of `unordered_map::operator[]`
inserts the entry `h ↦ 0`: the table grows by exactly one entry and a
subsequent `GetObject` on the same handle finds the entry (returning `0`
without growing the table again). -/
theorem getObject_unmapped_inserts (c : CanvasContext) (h : Int)
    (hh : h ≠ 0) (hm : objectMapLookup c.object_map h = none) :
    (c.GetObject h).1 = 0 ∧
    ((c.GetObject h).2).object_map.length = c.object_map.length + 1 ∧
    ((c.GetObject h).2).GetObject h = (0, (c.GetObject h).2) := by
  have hc : c.GetObject h =
      (0, { c with object_map := objectMapStore c.object_map h 0 }) := by
    simp [CanvasContext.GetObject, hh, hm]
  refine ⟨by rw [hc], ?_, ?_⟩
  · rw [hc]
    exact objectMapStore_length_of_lookup_none _ _ _ hm
  · rw [hc]
    simp [CanvasContext.GetObject, hh, objectMapLookup_store_self]

/-- C10 witness: on an empty table, `GetObject 5` returns `0` and the
table now holds the single entry `5 ↦ 0`. -/
theorem getObject_unmapped_inserts_witness :
    ((⟨800, 480, 800, 480, 0, []⟩ : CanvasContext).GetObject 5).1 = 0 ∧
    (((⟨800, 480, 800, 480, 0, []⟩ : CanvasContext).GetObject 5).2).object_map.length =
      ([] : List (Int × Nat)).length + 1 ∧
    (((⟨800, 480, 800, 480, 0, []⟩ : CanvasContext).GetObject 5).2).GetObject 5 =
      (0, ((⟨800, 480, 800, 480, 0, []⟩ : CanvasContext).GetObject 5).2) :=
  getObject_unmapped_inserts ⟨800, 480, 800, 480, 0, []⟩ 5 (by decide) rfl

end WTF
